import Mathlib

/-!
Verification of the CodeCollab review-workflow backend
(`backend/app/routers/{comment_votes,submissions,comments,leaderboard}.py`).

Shallow embedding conventions:
* database tables are Lean lists of row structures; the external store's
  `select`/`insert`/`update`/`delete` calls become list operations
  (`find?`, append, `map`, `filter`) on those lists;
* Python `==` filters become `==`/`&&` on `String`/`Int`;
* HTTP error responses (404 / 403 / 400) become an `Except HErr` result;
* the mention-notification side channel runs against a `NotifyEnv` of
  possibly-failing store operations (modelling exceptions raised by the
  store client), so the `try/except` in `_notify_mentions` is observable;
* `\w` in the mention regex is modelled as ASCII word characters, and the
  Python `set(...)` of extracted addresses is modelled as `List.dedup`
  (Python set iteration order is unspecified; only membership matters).
-/

/-- The HTTP-level failures the routers raise (`HTTPException`). -/
inductive HErr where
  | notFound
  | forbidden
  | badRequest
deriving Repr, DecidableEq

/-- A row of the `submissions` table. -/
structure SubmissionRow where
  id : String
  user_id : String
  user_email : String
  title : String
  code : String
  language : String
  problem_description : String
  status : String
  feedback : Option String
  created_at : Nat
deriving Repr, DecidableEq

/-- A row of the `comments` table. -/
structure CommentRow where
  id : String
  submission_id : String
  user_id : String
  user_email : String
  body : String
  line_number : Int
  created_at : Nat
deriving Repr, DecidableEq

/-- A row of the `comment_votes` table. -/
structure VoteRow where
  comment_id : String
  user_id : String
  vote : Int
deriving Repr, DecidableEq

/-- A row of the `notifications` table. -/
structure NotificationRow where
  user_id : String
  message : String
  type : String
  is_read : Bool
deriving Repr, DecidableEq

/-- The predicate `comment_id == c AND user_id == u` used by every
`comment_votes` query (`.eq("comment_id", ...).eq("user_id", ...)`). -/
def pairP (c u : String) (v : VoteRow) : Bool :=
  v.comment_id == c && v.user_id == u

/-! ### `comment_votes.py` -/

/-- Result shape of `_tally`. -/
structure Tally where
  upvotes : Nat
  downvotes : Nat
  net : Int
  user_vote : Int
deriving Repr, DecidableEq

/-- `comment_votes._tally(votes, user_id)`: counts of +1 and −1 votes, their
difference, and the first vote in the list belonging to `user_id` (0 if none). -/
def _tally (votes : List VoteRow) (user_id : String) : Tally :=
  { upvotes := votes.countP (fun v => v.vote == 1)
    downvotes := votes.countP (fun v => v.vote == -1)
    net := (votes.countP (fun v => v.vote == 1) : Int)
             - (votes.countP (fun v => v.vote == -1) : Int)
    user_vote := (((votes.find? (fun v => v.user_id == user_id)).map (·.vote)).getD 0) }

/-- `comment_votes.get_comment_votes`: select all votes of one comment,
then `_tally` them for the calling user. -/
def get_comment_votes (votes : List VoteRow) (comment_id user_id : String) : Tally :=
  _tally (votes.filter (fun v => v.comment_id == comment_id)) user_id

/-- `comment_votes.upsert_vote`: vote 0 deletes the (comment, voter) rows;
±1 updates the existing row for the pair if one exists, else inserts one;
any other value is rejected with HTTP 400 before touching the store. -/
def upsert_vote (votes : List VoteRow) (comment_id user_id : String) (vote : Int) :
    Except HErr (List VoteRow) :=
  if vote == 0 then
    .ok (votes.filter (fun v => !(pairP comment_id user_id v)))
  else if vote == 1 || vote == -1 then
    if votes.any (pairP comment_id user_id) then
      .ok (votes.map (fun v =>
        if pairP comment_id user_id v then { v with vote := vote } else v))
    else
      .ok (votes ++ [⟨comment_id, user_id, vote⟩])
  else
    .error .badRequest

/-- One requested vote upsert. -/
structure VoteEvent where
  comment_id : String
  user_id : String
  vote : Int
deriving Repr, DecidableEq

/-- Apply a sequence of `upsert_vote` calls in order; a rejected call
(HTTP 400) leaves the table unchanged. -/
def applyVoteEvents (votes : List VoteRow) : List VoteEvent → List VoteRow
  | [] => votes
  | e :: rest =>
    match upsert_vote votes e.comment_id e.user_id e.vote with
    | .ok votes' => applyVoteEvents votes' rest
    | .error _ => applyVoteEvents votes rest

/-- Whether an event targets the (c, u) pair. -/
def eventMatches (c u : String) (e : VoteEvent) : Bool :=
  e.comment_id == c && e.user_id == u

/-- The last value applied for the pair (c, u) in a sequence of upserts
(0 when the pair is never targeted). -/
def lastVoteValue (c u : String) (events : List VoteEvent) : Int :=
  events.foldl (fun acc e => if eventMatches c u e then e.vote else acc) 0

/-- The vote rows a single (comment, voter) pair should hold when the last
value applied for it was `x`: none when `x = 0`, one row worth `x` otherwise. -/
def canonicalPair (x : Int) : List Int :=
  if x == 0 then [] else [x]

/-! ### Mention extraction (`submissions._notify_mentions`)

The Python code runs `re.findall(r"@([\w.+-]+@[\w.+-]+\.[a-zA-Z]{2,})", body)`.
We model the character class `[\w.+-]` over ASCII and reproduce the regex
engine's behaviour on this pattern: leftmost scan, greedy quantifiers, and
backtracking of the domain run so that the trailing `\.[a-zA-Z]{2,}` can match. -/

/-- A character matched by the class `[\w.+-]` (ASCII reading of `\w`). -/
def isEmailChar (c : Char) : Bool :=
  c.isAlphanum || c == '_' || c == '.' || c == '+' || c == '-'

/-- Backtracking match of `[\w.+-]+\.[a-zA-Z]{2,}` at the head of `cs`:
try the longest domain run first (`k` characters, `k` counting down), then a
literal `.`, then a greedy run of at least two letters.  Returns the matched
characters and how many characters of `cs` they consume. -/
def matchDomTldAux : Nat → List Char → Option (List Char × Nat)
  | 0, _ => none
  | k + 1, cs =>
    match cs.drop (k + 1) with
    | '.' :: rest =>
      let tld := rest.takeWhile (fun c => c.isAlpha)
      if 2 ≤ tld.length then
        some (cs.take (k + 1) ++ '.' :: tld, (k + 1) + 1 + tld.length)
      else
        matchDomTldAux k cs
    | _ => matchDomTldAux k cs

/-- Match `[\w.+-]+\.[a-zA-Z]{2,}` at the head of `cs`; the greedy `+` run
can give back characters, so all domain lengths up to the maximal class run
are tried, longest first. -/
def matchDomTld (cs : List Char) : Option (List Char × Nat) :=
  matchDomTldAux (cs.takeWhile isEmailChar).length cs

/-- Match the capture group `([\w.+-]+@[\w.+-]+\.[a-zA-Z]{2,})` at the head of
`cs` (the position just after a literal `@`).  The local part consumes its
maximal class run (shortening it can never expose an `@`, which is outside the
class), then a literal `@`, then the domain/TLD part. -/
def matchEmailAt (cs : List Char) : Option (List Char × Nat) :=
  let lp := cs.takeWhile isEmailChar
  if lp.length == 0 then none
  else
    match cs.drop lp.length with
    | '@' :: rest =>
      match matchDomTld rest with
      | some (dt, n) => some (lp ++ '@' :: dt, lp.length + 1 + n)
      | none => none
    | _ => none

/-- `re.findall` scan: attempt a match at each position from the left; on
success emit the capture and resume after the full match, on failure advance
one character.  Fuel-indexed for structural recursion; each step consumes at
least the leading character, so `fuel = length` is always enough. -/
def scanMentionsAux : Nat → List Char → List (List Char)
  | 0, _ => []
  | _, [] => []
  | fuel + 1, c :: cs =>
    if c == '@' then
      match matchEmailAt cs with
      | some (cap, n) => cap :: scanMentionsAux fuel (cs.drop n)
      | none => scanMentionsAux fuel cs
    else
      scanMentionsAux fuel cs

/-- All capture-group results of `re.findall(r"@([\w.+-]+@[\w.+-]+\.[a-zA-Z]{2,})", s)`. -/
def extractEmails (s : String) : List String :=
  (scanMentionsAux s.toList.length s.toList).map (fun l => String.mk l)

/-! ### Mention fan-out (`submissions._notify_mentions`) -/

/-- The notification text `f"{from_email} mentioned you in a review comment"`. -/
def mention_message (from_email : String) : String :=
  from_email ++ " mentioned you in a review comment"

/-- The notification row inserted for a resolved mention. -/
def mkNotification (target_user_id from_email : String) : NotificationRow :=
  { user_id := target_user_id
    message := mention_message from_email
    type := "mention"
    is_read := false }

/-- The store operations `_notify_mentions` performs, each of which may raise
(`.error`), modelling exceptions from the store client. -/
structure NotifyEnv where
  lookupCommentAuthor : String → Except Unit (Option String)
  lookupSubmissionAuthor : String → Except Unit (Option String)
  insertNotification : NotificationRow → Except Unit Unit

/-- The loop body of `_notify_mentions` over the deduplicated addresses:
skip the author's own address; look the address up in `comments` then in
`submissions`; skip unresolved addresses; insert one "mention" notification
For each resolved one.  Returns the notifications inserted, or the first
exception raised. -/
def notifyLoop (env : NotifyEnv) (from_email : String) :
    List String → Except Unit (List NotificationRow)
  | [] => .ok []
  | e :: rest =>
    if e == from_email then
      notifyLoop env from_email rest
    else
      match env.lookupCommentAuthor e with
      | .error u => .error u
      | .ok first =>
        match (match first with
               | some uid => Except.ok (some uid)
               | none => env.lookupSubmissionAuthor e) with
        | .error u => .error u
        | .ok none => notifyLoop env from_email rest
        | .ok (some uid) =>
          match env.insertNotification (mkNotification uid from_email) with
          | .error u => .error u
          | .ok _ =>
            match notifyLoop env from_email rest with
            | .error u => .error u
            | .ok more => .ok (mkNotification uid from_email :: more)

/-- `submissions._notify_mentions`: extract the set of mentioned addresses and
run the fan-out loop; the surrounding `try/except Exception: pass` turns any
raised exception into "no observable result" — it never propagates. -/
def _notify_mentions (env : NotifyEnv) (comment_body from_email : String) :
    List NotificationRow :=
  match notifyLoop env from_email (extractEmails comment_body).dedup with
  | .ok created => created
  | .error _ => []

/-- An environment whose every store call raises. -/
def failEnv : NotifyEnv :=
  { lookupCommentAuthor := fun _ => .error ()
    lookupSubmissionAuthor := fun _ => .error ()
    insertNotification := fun _ => .error () }

/-- The non-raising environment backed by in-memory `comments` and
`submissions` tables (`select user_id ... eq user_email ... limit 1`). -/
def storeEnv (comments : List CommentRow) (subs : List SubmissionRow) : NotifyEnv :=
  { lookupCommentAuthor := fun e =>
      .ok ((comments.find? (fun c => c.user_email == e)).map (·.user_id))
    lookupSubmissionAuthor := fun e =>
      .ok ((subs.find? (fun s => s.user_email == e)).map (·.user_id))
    insertNotification := fun _ => .ok () }

/-- Email-to-identity resolution as the loop performs it: `comments` authorship
first, `submissions` authorship second. -/
def resolveIdentity (comments : List CommentRow) (subs : List SubmissionRow)
    (email : String) : Option String :=
  match comments.find? (fun c => c.user_email == email) with
  | some c => some c.user_id
  | none => (subs.find? (fun s => s.user_email == email)).map (·.user_id)

/-! ### Submission lifecycle (`submissions.py`) -/

/-- `submissions._get_submission_or_404`. -/
def _get_submission_or_404 (subs : List SubmissionRow) (submission_id : String) :
    Except HErr SubmissionRow :=
  match subs.find? (fun s => s.id == submission_id) with
  | none => .error .notFound
  | some s => .ok s

/-- `submissions._require_owner`: 403 unless the caller is the stored owner. -/
def _require_owner (submission : SubmissionRow) (caller : String) : Except HErr Unit :=
  if submission.user_id == caller then .ok () else .error .forbidden

/-- `submissions.add_submission_comment`: 404 if the submission is missing;
otherwise insert the comment (an omitted line number is stored as 0), run the
fire-and-forget mention fan-out, and return the created comment, the new
`comments` table, and the notifications the fan-out managed to create. -/
def add_submission_comment (subs : List SubmissionRow) (comments : List CommentRow)
    (env : NotifyEnv) (submission_id user_id user_email body : String)
    (line_number : Option Int) (new_id : String) (now : Nat) :
    Except HErr (CommentRow × List CommentRow × List NotificationRow) :=
  match _get_submission_or_404 subs submission_id with
  | .error e => .error e
  | .ok _ =>
    let comment : CommentRow :=
      { id := new_id, submission_id, user_id, user_email, body
        line_number := match line_number with | some n => n | none => 0
        created_at := now }
    let notifs := _notify_mentions env body user_email
    .ok (comment, comments ++ [comment], notifs)

/-- Application of a decision (`approve`/`reject`) to a stored submission:
the status is overwritten, and feedback is attached only when supplied and
non-empty (Python truthiness of `body.feedback`). -/
def applyDecision (new_status : String) (fb : Option String) (s : SubmissionRow) :
    SubmissionRow :=
  let s' := { s with status := new_status }
  match fb with
  | some f => if f == "" then s' else { s' with feedback := some f }
  | none => s'

/-- `submissions.approve_submission`: any authenticated caller; 404 if the
submission is missing; otherwise overwrite status with "approved" (plus
optional feedback) and return the new table. -/
def approve_submission (subs : List SubmissionRow) (submission_id caller : String)
    (fb : Option String) : Except HErr (List SubmissionRow) :=
  match _get_submission_or_404 subs submission_id with
  | .error e => .error e
  | .ok _ =>
    let _ := caller
    .ok (subs.map (fun s =>
      if s.id == submission_id then applyDecision "approved" fb s else s))

/-- `submissions.reject_submission`: identical to approval with status "rejected". -/
def reject_submission (subs : List SubmissionRow) (submission_id caller : String)
    (fb : Option String) : Except HErr (List SubmissionRow) :=
  match _get_submission_or_404 subs submission_id with
  | .error e => .error e
  | .ok _ =>
    let _ := caller
    .ok (subs.map (fun s =>
      if s.id == submission_id then applyDecision "rejected" fb s else s))

/-- `submissions.update_submission_code`: 404 / owner-only 403 / update. -/
def update_submission_code (subs : List SubmissionRow) (submission_id caller code : String) :
    Except HErr (List SubmissionRow) :=
  match _get_submission_or_404 subs submission_id with
  | .error e => .error e
  | .ok s =>
    match _require_owner s caller with
    | .error e => .error e
    | .ok _ =>
      .ok (subs.map (fun t => if t.id == submission_id then { t with code := code } else t))

/-- `submissions.update_submission_description`: 404 / owner-only 403 / update. -/
def update_submission_description (subs : List SubmissionRow)
    (submission_id caller description : String) : Except HErr (List SubmissionRow) :=
  match _get_submission_or_404 subs submission_id with
  | .error e => .error e
  | .ok s =>
    match _require_owner s caller with
    | .error e => .error e
    | .ok _ =>
      .ok (subs.map (fun t =>
        if t.id == submission_id then { t with problem_description := description } else t))

/-- `submissions.update_submission_status`: 404 / owner-only 403 / update. -/
def update_submission_status (subs : List SubmissionRow)
    (submission_id caller new_status : String) : Except HErr (List SubmissionRow) :=
  match _get_submission_or_404 subs submission_id with
  | .error e => .error e
  | .ok s =>
    match _require_owner s caller with
    | .error e => .error e
    | .ok _ =>
      .ok (subs.map (fun t =>
        if t.id == submission_id then { t with status := new_status } else t))

/-- `submissions.delete_submission`: 404 / owner-only 403 / delete. -/
def delete_submission (subs : List SubmissionRow) (submission_id caller : String) :
    Except HErr (List SubmissionRow) :=
  match _get_submission_or_404 subs submission_id with
  | .error e => .error e
  | .ok s =>
    match _require_owner s caller with
    | .error e => .error e
    | .ok _ =>
      .ok (subs.filter (fun t => !(t.id == submission_id)))

/-- `submissions.get_submission_comment_votes` (the batch tally): fetch the
submission's comments, then all votes for that id set in one query, then
group and tally per comment id. -/
def get_submission_comment_votes (comments : List CommentRow) (votes : List VoteRow)
    (submission_id user_id : String) : List (String × Tally) :=
  let cs := comments.filter (fun c => c.submission_id == submission_id)
  if cs.isEmpty then []
  else
    let comment_ids := cs.map (·.id)
    let all_votes := votes.filter (fun v => comment_ids.contains v.comment_id)
    comment_ids.map (fun cid =>
      let cv := all_votes.filter (fun v => v.comment_id == cid)
      (cid,
        { upvotes := cv.countP (fun v => v.vote == 1)
          downvotes := cv.countP (fun v => v.vote == -1)
          net := (cv.countP (fun v => v.vote == 1) : Int)
                   - (cv.countP (fun v => v.vote == -1) : Int)
          user_vote := (((cv.find? (fun v => v.user_id == user_id)).map (·.vote)).getD 0) }))

/-! ### `comments.py` -/

/-- `comments._get_comment_or_404` (the store's single-row select yields the
matching row or nothing). -/
def _get_comment_or_404 (comments : List CommentRow) (comment_id : String) :
    Except HErr CommentRow :=
  match comments.find? (fun c => c.id == comment_id) with
  | none => .error .notFound
  | some c => .ok c

/-- `comments._require_author`: 403 unless the caller authored the comment. -/
def _require_author (comment : CommentRow) (caller : String) : Except HErr Unit :=
  if comment.user_id == caller then .ok () else .error .forbidden

/-- `comments.update_comment`: 404 / author-only 403 / body update. -/
def update_comment (comments : List CommentRow) (comment_id caller new_body : String) :
    Except HErr (List CommentRow) :=
  match _get_comment_or_404 comments comment_id with
  | .error e => .error e
  | .ok c =>
    match _require_author c caller with
    | .error e => .error e
    | .ok _ =>
      .ok (comments.map (fun t =>
        if t.id == comment_id then { t with body := new_body } else t))

/-- `comments.delete_comment`: 404 / author-only 403 / delete. -/
def delete_comment (comments : List CommentRow) (comment_id caller : String) :
    Except HErr (List CommentRow) :=
  match _get_comment_or_404 comments comment_id with
  | .error e => .error e
  | .ok c =>
    match _require_author c caller with
    | .error e => .error e
    | .ok _ =>
      .ok (comments.filter (fun t => !(t.id == comment_id)))

/-! ### Search (`submissions.search_submissions`) -/

/-- Python `str.strip()` over ASCII whitespace. -/
def stripStr (s : String) : List Char :=
  ((s.toList.dropWhile Char.isWhitespace).reverse.dropWhile Char.isWhitespace).reverse

/-- Python `str.lower()` over ASCII. -/
def lowerL (l : List Char) : List Char :=
  l.map Char.toLower

/-- Python `haystack.find(needle)`: index of the first occurrence, if any. -/
def substrIdx (needle : List Char) : List Char → Option Nat
  | [] => if needle.isEmpty then some 0 else none
  | c :: rest =>
    if needle.isPrefixOf (c :: rest) then some 0
    else (substrIdx needle rest).map (· + 1)

/-- The snippet `("…" if start > 0 else "") + text[start:end] + ("…" if end < len else "")`
with `start = max 0 (idx - 50)` and `end = min len (idx + len q + 50)`. -/
def snippetWindow (text q : List Char) (idx : Nat) : List Char :=
  let start := idx - 50
  let stop := min text.length (idx + q.length + 50)
  (if 0 < start then ['…'] else [])
    ++ ((text.drop start).take (stop - start))
    ++ (if stop < text.length then ['…'] else [])

/-- One annotated search result. -/
structure SearchHit where
  sub : SubmissionRow
  match_field : Option String
  match_snippet : Option String
deriving Repr, DecidableEq

/-- The per-row annotation loop of `search_submissions`: try title, then
description, then code; a title match reports the whole title as snippet, the
other two report a ±50-character window around the first occurrence. -/
def search_annotate (ql : List Char) (sub : SubmissionRow) : SearchHit :=
  match substrIdx ql (lowerL sub.title.toList) with
  | some _ => ⟨sub, some "title", some sub.title⟩
  | none =>
    match substrIdx ql (lowerL sub.problem_description.toList) with
    | some idx =>
      ⟨sub, some "description",
        some (String.mk (snippetWindow sub.problem_description.toList ql idx))⟩
    | none =>
      match substrIdx ql (lowerL sub.code.toList) with
      | some idx =>
        ⟨sub, some "code", some (String.mk (snippetWindow sub.code.toList ql idx))⟩
      | none => ⟨sub, none, none⟩

/-- The store-side filter `or_(title.ilike.%q%, problem_description.ilike.%q%, code.ilike.%q%)`. -/
def matchesQuery (ql : List Char) (sub : SubmissionRow) : Bool :=
  (substrIdx ql (lowerL sub.title.toList)).isSome
    || (substrIdx ql (lowerL sub.problem_description.toList)).isSome
    || (substrIdx ql (lowerL sub.code.toList)).isSome

/-- Insertion into a list sorted by `created_at` descending. -/
def insertByCreatedDesc (s : SubmissionRow) : List SubmissionRow → List SubmissionRow
  | [] => [s]
  | t :: rest =>
    if s.created_at ≤ t.created_at then t :: insertByCreatedDesc s rest
    else s :: t :: rest

/-- The store's `order("created_at", desc=True)`. -/
def sortByCreatedDesc (subs : List SubmissionRow) : List SubmissionRow :=
  subs.foldr insertByCreatedDesc []

/-- `submissions.search_submissions`: strip the query, fetch the newest 25
rows matching any of the three fields case-insensitively, and annotate each
with its matched field and snippet. -/
def search_submissions (subs : List SubmissionRow) (q : String) : List SearchHit :=
  let ql := lowerL (stripStr q)
  (((sortByCreatedDesc (subs.filter (matchesQuery ql))).take 25).map (search_annotate ql))

/-! ### Leaderboard (`leaderboard.get_my_rank`) -/

/-- Result shape of `GET /api/v1/leaderboard/me`. -/
structure MyStats where
  rank : Option Nat
  user_id : String
  email : String
  score : Nat
  submissions_count : Nat
  approved_count : Nat
deriving Repr, DecidableEq

/-- `leaderboard.get_my_rank`: the caller's submissions, how many are
approved, a score of ten points per approval, and no per-caller rank. -/
def get_my_rank (subs : List SubmissionRow) (user_id email : String) : MyStats :=
  let submissions := subs.filter (fun s => s.user_id == user_id)
  let submissions_count := submissions.length
  let approved_count := submissions.countP (fun s => s.status == "approved")
  { rank := none, user_id, email
    score := approved_count * 10
    submissions_count, approved_count }

/-! ## Supporting lemmas for the vote-upsert invariant -/

lemma pairP_true_iff (c u : String) (v : VoteRow) :
    pairP c u v = true ↔ (v.comment_id = c ∧ v.user_id = u) := by
  simp [pairP]

lemma pairP_vote_update (c u : String) (v : VoteRow) (w : Int) :
    pairP c u { v with vote := w } = pairP c u v := rfl

lemma eventMatches_true_iff (c u : String) (e : VoteEvent) :
    eventMatches c u e = true ↔ (e.comment_id = c ∧ e.user_id = u) := by
  simp [eventMatches]

lemma pair_distinct {c u c' u' : String} (hne : ¬(c' = c ∧ u' = u)) {a : VoteRow}
    (h' : pairP c' u' a = true) : pairP c u a = false := by
  cases h : pairP c u a
  · rfl
  · exact absurd ⟨((pairP_true_iff c' u' a).mp h').1.symm.trans ((pairP_true_iff c u a).mp h).1,
      ((pairP_true_iff c' u' a).mp h').2.symm.trans ((pairP_true_iff c u a).mp h).2⟩ hne

lemma filter_del_same (c u : String) (votes : List VoteRow) :
    (votes.filter (fun v => !(pairP c u v))).filter (pairP c u) = [] := by
  rw [List.filter_filter]
  simp only [List.filter_eq_nil_iff]
  intro a _
  cases h : pairP c u a <;> simp [h]

lemma filter_del_other {c u c' u' : String} (hne : ¬(c' = c ∧ u' = u)) (votes : List VoteRow) :
    (votes.filter (fun v => !(pairP c' u' v))).filter (pairP c u) = votes.filter (pairP c u) := by
  rw [List.filter_filter]
  apply List.filter_congr
  intro a _
  cases h : pairP c u a
  · simp
  · have h' : pairP c' u' a = false := by
      cases hb : pairP c' u' a
      · rfl
      · rw [pair_distinct hne hb] at h; exact Bool.noConfusion h
    simp [h']

lemma filter_update_same (c u : String) (w : Int) (votes : List VoteRow) :
    ((votes.map (fun v => if pairP c u v then { v with vote := w } else v)).filter
        (pairP c u)).map (·.vote)
      = (votes.filter (pairP c u)).map (fun _ => w) := by
  induction votes with
  | nil => rfl
  | cons a l ih =>
    cases h : pairP c u a
    · simp [List.filter_cons, h, ih]
    · simp [List.filter_cons, h, ih, pairP_vote_update]

lemma filter_update_other {c u c' u' : String} (hne : ¬(c' = c ∧ u' = u)) (w : Int)
    (votes : List VoteRow) :
    (votes.map (fun v => if pairP c' u' v then { v with vote := w } else v)).filter
        (pairP c u)
      = votes.filter (pairP c u) := by
  induction votes with
  | nil => rfl
  | cons a l ih =>
    cases h' : pairP c' u' a
    · simp [List.filter_cons, h', ih]
    · have h : pairP c u a = false := pair_distinct hne h'
      have h2 : pairP c u { a with vote := w } = false := by
        rw [pairP_vote_update]; exact h
      simp [List.filter_cons, h', h, h2, ih]

lemma map_const_of_length_one {α : Type} (w : Int) (l : List α) (h : l.length = 1) :
    l.map (fun _ => w) = [w] := by
  cases l with
  | nil => simp at h
  | cons a t => cases t with
    | nil => rfl
    | cons b t' => simp at h

/-- Transport of the per-pair vote state through a sequence of upserts:
if the rows for pair (c, u) currently read as `canonicalPair x`, then after
any sequence of valid upserts they read as the canonical form of the folded
last value. -/
lemma applyVoteEvents_pair (c u : String) (events : List VoteEvent) :
    ∀ (votes : List VoteRow) (x : Int),
      (∀ e ∈ events, e.vote = 0 ∨ e.vote = 1 ∨ e.vote = -1) →
      (votes.filter (pairP c u)).map (·.vote) = canonicalPair x →
      ((applyVoteEvents votes events).filter (pairP c u)).map (·.vote)
        = canonicalPair
            (events.foldl (fun acc e => if eventMatches c u e then e.vote else acc) x) := by
  induction events with
  | nil =>
    intro votes x _ hx
    simpa [applyVoteEvents] using hx
  | cons e rest ih =>
    intro votes x hv hx
    have hrest : ∀ e' ∈ rest, e'.vote = 0 ∨ e'.vote = 1 ∨ e'.vote = -1 :=
      fun e' he' => hv e' (List.mem_cons_of_mem _ he')
    have hfold :
        (e :: rest).foldl (fun acc e' => if eventMatches c u e' then e'.vote else acc) x
          = rest.foldl (fun acc e' => if eventMatches c u e' then e'.vote else acc)
              (if eventMatches c u e then e.vote else x) := by
      simp [List.foldl_cons]
    by_cases h0 : e.vote = 0
    · -- value 0: the pair's rows are deleted
      have hstep : applyVoteEvents votes (e :: rest)
          = applyVoteEvents (votes.filter (fun v => !(pairP e.comment_id e.user_id v))) rest := by
        simp [applyVoteEvents, upsert_vote, h0]
      rw [hstep, hfold]
      by_cases hm : eventMatches c u e = true
      · obtain ⟨hc, hu⟩ := (eventMatches_true_iff c u e).mp hm
        apply ih _ _ hrest
        rw [hc, hu, filter_del_same, if_pos hm, h0]
        simp [canonicalPair]
      · have hne : ¬(e.comment_id = c ∧ e.user_id = u) := by
          intro hco; exact hm ((eventMatches_true_iff c u e).mpr hco)
        apply ih _ _ hrest
        rw [filter_del_other hne, hx, if_neg hm]
    · -- value ±1: create-or-replace
      have hpm : e.vote = 1 ∨ e.vote = -1 := by
        rcases hv e (List.mem_cons_self _ _) with h | h | h
        · exact absurd h h0
        · exact Or.inl h
        · exact Or.inr h
      have hnz_b : (e.vote == 0) = false := by
        simp [h0]
      have hval_b : (e.vote == 1 || e.vote == -1) = true := by
        rcases hpm with h | h <;> simp [h]
      have hcanon : canonicalPair e.vote = [e.vote] := by
        simp [canonicalPair, hnz_b]
      by_cases hany : votes.any (pairP e.comment_id e.user_id) = true
      · -- a row for the pair exists: update in place
        have hstep : applyVoteEvents votes (e :: rest)
            = applyVoteEvents
                (votes.map (fun v =>
                  if pairP e.comment_id e.user_id v then { v with vote := e.vote } else v))
                rest := by
          simp [applyVoteEvents, upsert_vote, hnz_b, hval_b, hany]
        rw [hstep, hfold]
        by_cases hm : eventMatches c u e = true
        · obtain ⟨hc, hu⟩ := (eventMatches_true_iff c u e).mp hm
          apply ih _ _ hrest
          rw [hc, hu, filter_update_same, if_pos hm]
          have hne_nil : votes.filter (pairP c u) ≠ [] := by
            rcases List.any_eq_true.mp hany with ⟨a, ha, hpa⟩
            rw [hc, hu] at hpa
            intro hnil
            exact (List.filter_eq_nil_iff.mp hnil a ha) hpa
          have hx0 : (x == 0) = false := by
            cases hbx : (x == 0 : Bool)
            · rfl
            · exfalso
              apply hne_nil
              have : (votes.filter (pairP c u)).map (·.vote) = [] := by
                rw [hx]; simp [canonicalPair, hbx]
              simpa using this
          have hlen : (votes.filter (pairP c u)).length = 1 := by
            have hlm := congrArg List.length hx
            simp only [List.length_map] at hlm
            rw [hlm]
            simp [canonicalPair, hx0]
          rw [map_const_of_length_one _ _ hlen, hcanon]
        · have hne : ¬(e.comment_id = c ∧ e.user_id = u) := by
            intro hco; exact hm ((eventMatches_true_iff c u e).mpr hco)
          apply ih _ _ hrest
          rw [filter_update_other hne, hx, if_neg hm]
      · -- no row for the pair: insert a fresh one
        have hstep : applyVoteEvents votes (e :: rest)
            = applyVoteEvents (votes ++ [⟨e.comment_id, e.user_id, e.vote⟩]) rest := by
          simp [applyVoteEvents, upsert_vote, hnz_b, hval_b, hany]
        rw [hstep, hfold]
        by_cases hm : eventMatches c u e = true
        · obtain ⟨hc, hu⟩ := (eventMatches_true_iff c u e).mp hm
          have hfilter_nil : votes.filter (pairP c u) = [] := by
            rw [List.filter_eq_nil_iff]
            intro a ha hpa
            rw [← hc, ← hu] at hpa
            exact hany (List.any_eq_true.mpr ⟨a, ha, hpa⟩)
          apply ih _ _ hrest
          rw [List.filter_append, hfilter_nil, if_pos hm, hcanon]
          have hrow : pairP c u ⟨e.comment_id, e.user_id, e.vote⟩ = true := by
            rw [pairP_true_iff]; exact ⟨hc, hu⟩
          simp [List.filter_cons, hrow]
        · have hrow : pairP c u ⟨e.comment_id, e.user_id, e.vote⟩ = false := by
            cases hb : pairP c u ⟨e.comment_id, e.user_id, e.vote⟩
            · rfl
            · exfalso
              apply hm
              rw [eventMatches_true_iff]
              exact (pairP_true_iff c u _).mp hb
          apply ih _ _ hrest
          rw [List.filter_append, if_neg hm]
          simp [List.filter_cons, hrow, hx]

/-- C1: starting from an empty vote table, after any sequence of upserts with
values in {-1, 0, 1} applied in order, each (comment, voter) pair holds at
most one vote row, that row's value is the last non-zero value applied for the
pair (a 0 deletes the pair's vote), and the tally's reported vote for the
voter equals exactly that last applied value — votes never accumulate as
duplicates. -/
theorem vote_upsert_last_write_wins (events : List VoteEvent) (c u : String)
    (hvals : ∀ e ∈ events, e.vote = 0 ∨ e.vote = 1 ∨ e.vote = -1) :
    ((applyVoteEvents [] events).filter (pairP c u)).length ≤ 1 ∧
    ((applyVoteEvents [] events).filter (pairP c u)).map (·.vote)
        = canonicalPair (lastVoteValue c u events) ∧
    (get_comment_votes (applyVoteEvents [] events) c u).user_vote
        = lastVoteValue c u events := by
  have key : ((applyVoteEvents [] events).filter (pairP c u)).map (·.vote)
      = canonicalPair (lastVoteValue c u events) :=
    applyVoteEvents_pair c u events [] 0 hvals (by simp [canonicalPair])
  have hcanon_len : ∀ x : Int, (canonicalPair x).length ≤ 1 := by
    intro x
    unfold canonicalPair
    split <;> simp
  refine ⟨?_, key, ?_⟩
  · have hlen := congrArg List.length key
    simp only [List.length_map] at hlen
    rw [hlen]
    exact hcanon_len _
  · have hpred : (fun (a : VoteRow) => a.user_id == u && a.comment_id == c) = pairP c u := by
      funext v
      simp [pairP, Bool.and_comm]
    have hfind : (List.find? (fun v => v.user_id == u)
          ((applyVoteEvents [] events).filter (fun v => v.comment_id == c)))
        = ((applyVoteEvents [] events).filter (pairP c u)).head? := by
      rw [← List.filter_head?, List.filter_filter, hpred]
    have huv : (get_comment_votes (applyVoteEvents [] events) c u).user_vote
        = ((((applyVoteEvents [] events).filter (pairP c u)).map (·.vote)).head?).getD 0 := by
      simp only [get_comment_votes, _tally]
      rw [hfind, ← List.head?_map]
    rw [huv, key]
    simp only [canonicalPair]
    by_cases h : (lastVoteValue c u events == 0) = true
    · rw [if_pos h]
      simp only [List.head?_nil, Option.getD_none]
      exact (beq_iff_eq.mp h).symm
    · rw [if_neg h]
      simp

/-- Concrete run of the C1 theorem: five upserts on comment c1, the last
value applied for voter u1 being +1 after an interleaved delete. -/
theorem vote_upsert_last_write_wins_witness :
    ((applyVoteEvents []
        [⟨"c1", "u1", 1⟩, ⟨"c1", "u1", -1⟩, ⟨"c1", "u2", 1⟩,
         ⟨"c1", "u1", 0⟩, ⟨"c1", "u1", 1⟩]).filter (pairP "c1" "u1")).length ≤ 1 ∧
    ((applyVoteEvents []
        [⟨"c1", "u1", 1⟩, ⟨"c1", "u1", -1⟩, ⟨"c1", "u2", 1⟩,
         ⟨"c1", "u1", 0⟩, ⟨"c1", "u1", 1⟩]).filter (pairP "c1" "u1")).map (·.vote)
        = canonicalPair (lastVoteValue "c1" "u1"
            [⟨"c1", "u1", 1⟩, ⟨"c1", "u1", -1⟩, ⟨"c1", "u2", 1⟩,
             ⟨"c1", "u1", 0⟩, ⟨"c1", "u1", 1⟩]) ∧
    (get_comment_votes (applyVoteEvents []
        [⟨"c1", "u1", 1⟩, ⟨"c1", "u1", -1⟩, ⟨"c1", "u2", 1⟩,
         ⟨"c1", "u1", 0⟩, ⟨"c1", "u1", 1⟩]) "c1" "u1").user_vote
        = lastVoteValue "c1" "u1"
            [⟨"c1", "u1", 1⟩, ⟨"c1", "u1", -1⟩, ⟨"c1", "u2", 1⟩,
             ⟨"c1", "u1", 0⟩, ⟨"c1", "u1", 1⟩] :=
  vote_upsert_last_write_wins
    [⟨"c1", "u1", 1⟩, ⟨"c1", "u1", -1⟩, ⟨"c1", "u2", 1⟩,
     ⟨"c1", "u1", 0⟩, ⟨"c1", "u1", 1⟩] "c1" "u1" (by decide)

/-! ## Tally correctness -/

lemma user_vote_eq_head (votes : List VoteRow) (c u : String) :
    (get_comment_votes votes c u).user_vote
      = (((votes.filter (pairP c u)).map (·.vote)).head?).getD 0 := by
  have hpred : (fun (a : VoteRow) => a.user_id == u && a.comment_id == c) = pairP c u := by
    funext v
    simp [pairP, Bool.and_comm]
  simp only [get_comment_votes, _tally]
  rw [← List.filter_head?, List.filter_filter, hpred, ← List.head?_map]

lemma eq_singleton_of_length_le_one {α : Type} {l : List α} {a : α}
    (hlen : l.length ≤ 1) (ha : a ∈ l) : l = [a] := by
  cases l with
  | nil => cases ha
  | cons b t =>
    cases t with
    | nil =>
      cases ha with
      | head => rfl
      | tail _ h => cases h
    | cons b' t' => simp at hlen

/-- C6: the tally of a comment counts its +1 votes as upvotes and its −1
votes as downvotes, reports net as their difference, and reports as the
caller's vote the value of the caller's stored vote row for the comment, or 0
when the caller holds no vote there (assuming the store holds at most one row
per (comment, voter) pair). -/
theorem tally_counts_and_caller_vote (votes : List VoteRow) (c u : String)
    (huniq : ((votes.filter (pairP c u)).length ≤ 1)) :
    (get_comment_votes votes c u).upvotes
        = votes.countP (fun v => v.comment_id == c && v.vote == 1) ∧
    (get_comment_votes votes c u).downvotes
        = votes.countP (fun v => v.comment_id == c && v.vote == -1) ∧
    (get_comment_votes votes c u).net
        = ((get_comment_votes votes c u).upvotes : Int)
            - ((get_comment_votes votes c u).downvotes : Int) ∧
    (∀ r ∈ votes, r.comment_id = c → r.user_id = u →
        (get_comment_votes votes c u).user_vote = r.vote) ∧
    ((∀ r ∈ votes, ¬(r.comment_id = c ∧ r.user_id = u)) →
        (get_comment_votes votes c u).user_vote = 0) := by
  refine ⟨?_, ?_, rfl, ?_, ?_⟩
  · simp only [get_comment_votes, _tally, List.countP_filter]
    exact List.countP_congr (fun v _ => by
      cases h1 : (v.vote == 1) <;> cases h2 : (v.comment_id == c) <;> simp [h1, h2])
  · simp only [get_comment_votes, _tally, List.countP_filter]
    exact List.countP_congr (fun v _ => by
      cases h1 : (v.vote == -1) <;> cases h2 : (v.comment_id == c) <;> simp [h1, h2])
  · intro r hr hc hu
    have hmem : r ∈ votes.filter (pairP c u) :=
      List.mem_filter.mpr ⟨hr, (pairP_true_iff c u r).mpr ⟨hc, hu⟩⟩
    rw [user_vote_eq_head, eq_singleton_of_length_le_one huniq hmem]
    rfl
  · intro hnone
    have hnil : votes.filter (pairP c u) = [] := by
      rw [List.filter_eq_nil_iff]
      intro a ha hpa
      exact hnone a ha ((pairP_true_iff c u a).mp hpa)
    rw [user_vote_eq_head, hnil]
    rfl

/-- Concrete run of the C6 theorem on the spec's scenario: votes +1 from U1,
+1 from U2, −1 from U3 on comment C, tallied for caller U1. -/
theorem tally_counts_and_caller_vote_witness :
    (get_comment_votes [⟨"C", "U1", 1⟩, ⟨"C", "U2", 1⟩, ⟨"C", "U3", -1⟩] "C" "U1").upvotes
        = ([⟨"C", "U1", 1⟩, ⟨"C", "U2", 1⟩, ⟨"C", "U3", -1⟩] : List VoteRow).countP
            (fun v => v.comment_id == "C" && v.vote == 1) ∧
    (get_comment_votes [⟨"C", "U1", 1⟩, ⟨"C", "U2", 1⟩, ⟨"C", "U3", -1⟩] "C" "U1").net
        = ((get_comment_votes [⟨"C", "U1", 1⟩, ⟨"C", "U2", 1⟩, ⟨"C", "U3", -1⟩] "C" "U1").upvotes : Int)
            - ((get_comment_votes [⟨"C", "U1", 1⟩, ⟨"C", "U2", 1⟩, ⟨"C", "U3", -1⟩] "C" "U1").downvotes : Int) ∧
    (get_comment_votes [⟨"C", "U1", 1⟩, ⟨"C", "U2", 1⟩, ⟨"C", "U3", -1⟩] "C" "U1").user_vote = 1 := by
  have h := tally_counts_and_caller_vote
    [⟨"C", "U1", 1⟩, ⟨"C", "U2", 1⟩, ⟨"C", "U3", -1⟩] "C" "U1" (by decide)
  exact ⟨h.1, h.2.2.1, h.2.2.2.1 ⟨"C", "U1", 1⟩ (by decide) rfl rfl⟩

/-- C7: the batch tally over a submission returns exactly one entry per
comment of the submission, keyed by comment id, and each entry equals the
per-comment tally computed over the same store for the same caller. -/
theorem batch_tally_matches_per_comment (comments : List CommentRow) (votes : List VoteRow)
    (sid u : String) :
    get_submission_comment_votes comments votes sid u
      = (comments.filter (fun c => c.submission_id == sid)).map
          (fun c => (c.id, get_comment_votes votes c.id u)) := by
  simp only [get_submission_comment_votes]
  by_cases hcs : (comments.filter (fun c => c.submission_id == sid)).isEmpty = true
  · rw [if_pos hcs, List.isEmpty_iff.mp hcs]
    rfl
  · rw [if_neg hcs, List.map_map]
    apply List.map_congr_left
    intro c hc
    have hid : c.id ∈ (comments.filter (fun c' => c'.submission_id == sid)).map (·.id) :=
      List.mem_map.mpr ⟨c, hc, rfl⟩
    have hfilters :
        (votes.filter (fun v =>
            ((comments.filter (fun c' => c'.submission_id == sid)).map (·.id)).contains
              v.comment_id)).filter (fun v => v.comment_id == c.id)
          = votes.filter (fun v => v.comment_id == c.id) := by
      rw [List.filter_filter]
      apply List.filter_congr
      intro v _
      cases hv : (v.comment_id == c.id)
      · simp
      · have hvc : v.comment_id = c.id := by
          exact beq_iff_eq.mp hv
        simp only [Bool.true_and]
        rw [hvc]
        exact List.elem_iff.mpr hid
    simp only [Function.comp]
    rw [hfilters]
    rfl

/-! ## Mention fan-out -/

/-- Running the fan-out loop against a non-raising store resolves each
non-self address through comment authorship then submission authorship and
inserts exactly one notification per resolved address. -/
lemma notifyLoop_storeEnv (comments : List CommentRow) (subs : List SubmissionRow)
    (from_email : String) (l : List String) :
    notifyLoop (storeEnv comments subs) from_email l
      = .ok ((l.filter (fun e => !(e == from_email))).filterMap
          (fun e => (resolveIdentity comments subs e).map
            (fun uid => mkNotification uid from_email))) := by
  have hlc : ∀ e', (storeEnv comments subs).lookupCommentAuthor e'
      = .ok ((comments.find? (fun c => c.user_email == e')).map (·.user_id)) := fun _ => rfl
  have hls : ∀ e', (storeEnv comments subs).lookupSubmissionAuthor e'
      = .ok ((subs.find? (fun s => s.user_email == e')).map (·.user_id)) := fun _ => rfl
  have hins : ∀ n, (storeEnv comments subs).insertNotification n = .ok () := fun _ => rfl
  induction l with
  | nil => rfl
  | cons e rest ih =>
    by_cases he : (e == from_email) = true
    · simp [notifyLoop, he, ih, List.filter_cons]
    · have he' : (e == from_email) = false := by
        cases h : (e == from_email)
        · rfl
        · exact absurd h he
      cases hcf : comments.find? (fun c => c.user_email == e) with
      | some c0 =>
        simp [notifyLoop, he', hlc, hins, hcf, ih, resolveIdentity,
          List.filter_cons, List.filterMap_cons]
      | none =>
        cases hsf : subs.find? (fun s => s.user_email == e) with
        | some s0 =>
          simp [notifyLoop, he', hlc, hls, hins, hcf, hsf, ih, resolveIdentity,
            List.filter_cons, List.filterMap_cons]
        | none =>
          simp [notifyLoop, he', hlc, hls, hcf, hsf, ih, resolveIdentity,
            List.filter_cons, List.filterMap_cons]

/-- C3: against a non-raising store the fan-out produces exactly the
notifications obtained by deduplicating the addresses extracted from the
body, dropping the author's own address, resolving each remaining address
through comment- then submission-authorship, and creating one "mention"
notification (whose message names the author's email) per resolved address;
the deduplicated address list is duplicate-free, unresolved addresses
contribute nothing, and the author's own address contributes nothing. -/
theorem mention_fanout_dedup_and_resolution (comments : List CommentRow)
    (subs : List SubmissionRow) (body from_email : String) :
    _notify_mentions (storeEnv comments subs) body from_email
      = ((extractEmails body).dedup.filter (fun e => !(e == from_email))).filterMap
          (fun e => (resolveIdentity comments subs e).map
            (fun uid => mkNotification uid from_email)) ∧
    (extractEmails body).dedup.Nodup ∧
    (∀ n ∈ _notify_mentions (storeEnv comments subs) body from_email,
        n.type = "mention"
          ∧ n.message = from_email ++ " mentioned you in a review comment") := by
  have hloop := notifyLoop_storeEnv comments subs from_email (extractEmails body).dedup
  have h1 : _notify_mentions (storeEnv comments subs) body from_email
      = ((extractEmails body).dedup.filter (fun e => !(e == from_email))).filterMap
          (fun e => (resolveIdentity comments subs e).map
            (fun uid => mkNotification uid from_email)) := by
    rw [_notify_mentions, hloop]
  refine ⟨h1, List.nodup_dedup _, ?_⟩
  intro n hn
  rw [h1] at hn
  rcases List.mem_filterMap.mp hn with ⟨e, _, hres⟩
  rcases Option.map_eq_some'.mp hres with ⟨uid, _, hmk⟩
  rw [← hmk]
  exact ⟨rfl, rfl⟩

/-- Against the always-raising store the fan-out observably creates nothing:
the loop either fails (and the exception is swallowed) or skipped everything. -/
lemma notifyLoop_failEnv (from_email : String) (l : List String) :
    notifyLoop failEnv from_email l = .ok [] ∨ notifyLoop failEnv from_email l = .error () := by
  induction l with
  | nil => exact Or.inl rfl
  | cons e rest ih =>
    by_cases he : (e == from_email) = true
    · rcases ih with h | h
      · exact Or.inl (by simp [notifyLoop, he, h])
      · exact Or.inr (by simp [notifyLoop, he, h])
    · exact Or.inr (by simp [notifyLoop, he, failEnv])

lemma notify_mentions_failEnv (body from_email : String) :
    _notify_mentions failEnv body from_email = [] := by
  rcases notifyLoop_failEnv from_email (extractEmails body).dedup with h | h <;>
    simp [_notify_mentions, h]

/-- C2: whenever the submission exists (so the comment write goes through),
`add_submission_comment` returns the created comment no matter what the
notification environment does — in particular with the always-raising
environment it still succeeds, producing no notifications. -/
theorem add_comment_absorbs_notification_failure
    (subs : List SubmissionRow) (comments : List CommentRow) (env : NotifyEnv)
    (sid uid email body : String) (ln : Option Int) (nid : String) (now : Nat)
    (s : SubmissionRow) (hfound : subs.find? (fun t => t.id == sid) = some s) :
    (add_submission_comment subs comments env sid uid email body ln nid now).map
        (fun r => (r.1, r.2.1))
      = .ok (⟨nid, sid, uid, email, body, (match ln with | some n => n | none => 0), now⟩,
          comments
            ++ [⟨nid, sid, uid, email, body, (match ln with | some n => n | none => 0), now⟩]) ∧
    add_submission_comment subs comments failEnv sid uid email body ln nid now
      = .ok (⟨nid, sid, uid, email, body, (match ln with | some n => n | none => 0), now⟩,
          comments
            ++ [⟨nid, sid, uid, email, body, (match ln with | some n => n | none => 0), now⟩],
          []) := by
  constructor
  · simp [add_submission_comment, _get_submission_or_404, hfound, Except.map]
  · simp [add_submission_comment, _get_submission_or_404, hfound, notify_mentions_failEnv]

/-- Concrete run of the C2 theorem: the submission exists and every
notification-side store call raises, yet the add succeeds. -/
theorem add_comment_absorbs_notification_failure_witness :
    (add_submission_comment [⟨"s1", "u1", "o@x.com", "T", "c", "py", "", "open", none, 0⟩]
        [] failEnv "s1" "u2" "b@x.com" "hi @o@x.com" none "cm1" 7).map
        (fun r => (r.1, r.2.1))
      = .ok (⟨"cm1", "s1", "u2", "b@x.com", "hi @o@x.com", 0, 7⟩,
          [⟨"cm1", "s1", "u2", "b@x.com", "hi @o@x.com", 0, 7⟩]) ∧
    add_submission_comment [⟨"s1", "u1", "o@x.com", "T", "c", "py", "", "open", none, 0⟩]
        [] failEnv "s1" "u2" "b@x.com" "hi @o@x.com" none "cm1" 7
      = .ok (⟨"cm1", "s1", "u2", "b@x.com", "hi @o@x.com", 0, 7⟩,
          [⟨"cm1", "s1", "u2", "b@x.com", "hi @o@x.com", 0, 7⟩], []) :=
  add_comment_absorbs_notification_failure
    [⟨"s1", "u1", "o@x.com", "T", "c", "py", "", "open", none, 0⟩]
    [] failEnv "s1" "u2" "b@x.com" "hi @o@x.com" none "cm1" 7
    ⟨"s1", "u1", "o@x.com", "T", "c", "py", "", "open", none, 0⟩ (by decide)

/-- C10: a comment added without a line-number anchor stores line number 0
(not null), and a supplied line number is stored unchanged. -/
theorem comment_line_number_default_zero
    (subs : List SubmissionRow) (comments : List CommentRow) (env : NotifyEnv)
    (sid uid email body nid : String) (now : Nat) (v : Int)
    (s : SubmissionRow) (hfound : subs.find? (fun t => t.id == sid) = some s) :
    ((add_submission_comment subs comments env sid uid email body none nid now).map
        (fun r => r.1.line_number) = .ok 0) ∧
    ((add_submission_comment subs comments env sid uid email body (some v) nid now).map
        (fun r => r.1.line_number) = .ok v) := by
  constructor <;> simp [add_submission_comment, _get_submission_or_404, hfound, Except.map]

/-- Concrete run of the C10 theorem. -/
theorem comment_line_number_default_zero_witness :
    ((add_submission_comment [⟨"s1", "u1", "o@x.com", "T", "c", "py", "", "open", none, 0⟩]
        [] failEnv "s1" "u2" "b@x.com" "body" none "cm1" 7).map
        (fun r => r.1.line_number) = .ok 0) ∧
    ((add_submission_comment [⟨"s1", "u1", "o@x.com", "T", "c", "py", "", "open", none, 0⟩]
        [] failEnv "s1" "u2" "b@x.com" "body" (some 12) "cm1" 7).map
        (fun r => r.1.line_number) = .ok 12) :=
  comment_line_number_default_zero
    [⟨"s1", "u1", "o@x.com", "T", "c", "py", "", "open", none, 0⟩]
    [] failEnv "s1" "u2" "b@x.com" "body" "cm1" 7 12
    ⟨"s1", "u1", "o@x.com", "T", "c", "py", "", "open", none, 0⟩ (by decide)

/-! ## Decision operations -/

lemma applyDecision_id (st : String) (fb : Option String) (s : SubmissionRow) :
    (applyDecision st fb s).id = s.id := by
  cases fb with
  | none => rfl
  | some f =>
    simp only [applyDecision]
    split <;> rfl

lemma applyDecision_status (st : String) (fb : Option String) (s : SubmissionRow) :
    (applyDecision st fb s).status = st := by
  cases fb with
  | none => rfl
  | some f =>
    simp only [applyDecision]
    split <;> rfl

lemma applyDecision_feedback (st f : String) (hf : (f == "") = false) (s : SubmissionRow) :
    (applyDecision st (some f) s).feedback = some f := by
  simp [applyDecision, hf]

/-- A member of a decided table that carries the decided id must be the
decision applied to some original row. -/
lemma mem_decide_map {subs : List SubmissionRow} {sid st : String} {fb : Option String}
    {t : SubmissionRow}
    (ht : t ∈ subs.map (fun x => if x.id == sid then applyDecision st fb x else x))
    (hid : t.id = sid) : ∃ orig ∈ subs, t = applyDecision st fb orig := by
  rcases List.mem_map.mp ht with ⟨orig, horig, heq⟩
  by_cases h : (orig.id == sid) = true
  · exact ⟨orig, horig, by rw [← heq, if_pos h]⟩
  · exfalso
    rw [if_neg h] at heq
    rw [← heq] at hid
    exact h (beq_iff_eq.mpr hid)

/-- C4: on an existing submission a decision succeeds for any authenticated
caller (no ownership gate), overwriting the status and optionally attaching
non-empty feedback; re-deciding is unguarded, so rejecting and then approving
leaves every row for the submission with status "approved" — no trace of the
intermediate "rejected" state remains. -/
theorem decide_any_caller_last_write_wins (subs : List SubmissionRow)
    (sid caller1 caller2 : String) (fb1 fb2 : Option String) (s0 : SubmissionRow)
    (hmem : s0 ∈ subs) (hid : s0.id = sid) :
    reject_submission subs sid caller1 fb1
        = .ok (subs.map (fun t => if t.id == sid then applyDecision "rejected" fb1 t else t))
    ∧ (∀ t ∈ subs.map (fun t => if t.id == sid then applyDecision "rejected" fb1 t else t),
          t.id = sid → t.status = "rejected")
    ∧ approve_submission
          (subs.map (fun t => if t.id == sid then applyDecision "rejected" fb1 t else t))
          sid caller2 fb2
        = .ok ((subs.map (fun t => if t.id == sid then applyDecision "rejected" fb1 t else t)).map
            (fun t => if t.id == sid then applyDecision "approved" fb2 t else t))
    ∧ (∀ t ∈ (subs.map (fun t => if t.id == sid then applyDecision "rejected" fb1 t else t)).map
            (fun t => if t.id == sid then applyDecision "approved" fb2 t else t),
          t.id = sid →
            t.status = "approved"
              ∧ ∀ f, fb2 = some f → (f == "") = false → t.feedback = some f) := by
  have hfs : (subs.find? (fun s => s.id == sid)).isSome :=
    List.find?_isSome.mpr ⟨s0, hmem, by simp [hid]⟩
  obtain ⟨sf, hsf⟩ := Option.isSome_iff_exists.mp hfs
  refine ⟨by simp [reject_submission, _get_submission_or_404, hsf], ?_, ?_, ?_⟩
  · intro t ht hidt
    rcases mem_decide_map ht hidt with ⟨orig, _, rfl⟩
    exact applyDecision_status _ _ _
  · have hmem1 : (if s0.id == sid then applyDecision "rejected" fb1 s0 else s0)
        ∈ subs.map (fun t => if t.id == sid then applyDecision "rejected" fb1 t else t) :=
      List.mem_map_of_mem _ hmem
    have hid1 : (if s0.id == sid then applyDecision "rejected" fb1 s0 else s0).id = sid := by
      rw [if_pos (beq_iff_eq.mpr hid), applyDecision_id]
      exact hid
    have hfs2 : ((subs.map (fun t => if t.id == sid then applyDecision "rejected" fb1 t else t)).find?
        (fun s => s.id == sid)).isSome :=
      List.find?_isSome.mpr ⟨_, hmem1, by simpa using hid1⟩
    obtain ⟨sf2, hsf2⟩ := Option.isSome_iff_exists.mp hfs2
    simp only [approve_submission, _get_submission_or_404, hsf2]
  · intro t ht hidt
    rcases mem_decide_map ht hidt with ⟨orig, _, rfl⟩
    refine ⟨applyDecision_status _ _ _, ?_⟩
    intro f hf hfe
    rw [hf]
    exact applyDecision_feedback _ _ hfe _

/-- Concrete run of the C4 theorem: a submission owned by u1 is rejected by
caller m1 and then approved with feedback by caller m2, neither of them the
owner; the final status is "approved" with the feedback attached. -/
theorem decide_any_caller_last_write_wins_witness :
    reject_submission [⟨"s1", "u1", "u1@x.com", "T", "c", "py", "d", "open", none, 0⟩]
        "s1" "m1" none
      = .ok [⟨"s1", "u1", "u1@x.com", "T", "c", "py", "d", "rejected", none, 0⟩] ∧
    approve_submission [⟨"s1", "u1", "u1@x.com", "T", "c", "py", "d", "rejected", none, 0⟩]
        "s1" "m2" (some "good")
      = .ok [⟨"s1", "u1", "u1@x.com", "T", "c", "py", "d", "approved", some "good", 0⟩] ∧
    (⟨"s1", "u1", "u1@x.com", "T", "c", "py", "d", "approved", some "good", 0⟩
        : SubmissionRow).status = "approved" := by
  have h := decide_any_caller_last_write_wins
    [⟨"s1", "u1", "u1@x.com", "T", "c", "py", "d", "open", none, 0⟩]
    "s1" "m1" "m2" none (some "good")
    ⟨"s1", "u1", "u1@x.com", "T", "c", "py", "d", "open", none, 0⟩
    (by decide) rfl
  refine ⟨?_, ?_, rfl⟩
  · rw [h.1]
    rfl
  · have h2 := h.2.2.1
    rw [show (([⟨"s1", "u1", "u1@x.com", "T", "c", "py", "d", "open", none, 0⟩]
          : List SubmissionRow).map
          (fun t => if t.id == "s1" then applyDecision "rejected" none t else t))
        = [⟨"s1", "u1", "u1@x.com", "T", "c", "py", "d", "rejected", none, 0⟩] from rfl] at h2
    rw [h2]
    rfl

/-! ## Ownership and authorship guards -/

/-- C5: every owner- or author-restricted mutation — submission code,
description and status updates, submission delete, comment edit and comment
delete — fails with 404 (NotFoundError) when the referenced entity does not
exist, and with 403 (AuthorizationError) when it exists but the caller is not
the stored owner (submissions) or author (comments); in both cases the
operation returns no updated table, leaving the entity unchanged. -/
theorem owner_author_guards :
    (∀ (subs : List SubmissionRow) (sid caller code : String),
        (∀ r ∈ subs, ¬(r.id = sid)) →
        update_submission_code subs sid caller code = .error .notFound) ∧
    (∀ (subs : List SubmissionRow) (sid caller code : String) (s : SubmissionRow),
        subs.find? (fun t => t.id == sid) = some s → ¬(s.user_id = caller) →
        update_submission_code subs sid caller code = .error .forbidden) ∧
    (∀ (subs : List SubmissionRow) (sid caller description : String),
        (∀ r ∈ subs, ¬(r.id = sid)) →
        update_submission_description subs sid caller description = .error .notFound) ∧
    (∀ (subs : List SubmissionRow) (sid caller description : String) (s : SubmissionRow),
        subs.find? (fun t => t.id == sid) = some s → ¬(s.user_id = caller) →
        update_submission_description subs sid caller description = .error .forbidden) ∧
    (∀ (subs : List SubmissionRow) (sid caller new_status : String),
        (∀ r ∈ subs, ¬(r.id = sid)) →
        update_submission_status subs sid caller new_status = .error .notFound) ∧
    (∀ (subs : List SubmissionRow) (sid caller new_status : String) (s : SubmissionRow),
        subs.find? (fun t => t.id == sid) = some s → ¬(s.user_id = caller) →
        update_submission_status subs sid caller new_status = .error .forbidden) ∧
    (∀ (subs : List SubmissionRow) (sid caller : String),
        (∀ r ∈ subs, ¬(r.id = sid)) →
        delete_submission subs sid caller = .error .notFound) ∧
    (∀ (subs : List SubmissionRow) (sid caller : String) (s : SubmissionRow),
        subs.find? (fun t => t.id == sid) = some s → ¬(s.user_id = caller) →
        delete_submission subs sid caller = .error .forbidden) ∧
    (∀ (comments : List CommentRow) (cid caller new_body : String),
        (∀ r ∈ comments, ¬(r.id = cid)) →
        update_comment comments cid caller new_body = .error .notFound) ∧
    (∀ (comments : List CommentRow) (cid caller new_body : String) (c : CommentRow),
        comments.find? (fun t => t.id == cid) = some c → ¬(c.user_id = caller) →
        update_comment comments cid caller new_body = .error .forbidden) ∧
    (∀ (comments : List CommentRow) (cid caller : String),
        (∀ r ∈ comments, ¬(r.id = cid)) →
        delete_comment comments cid caller = .error .notFound) ∧
    (∀ (comments : List CommentRow) (cid caller : String) (c : CommentRow),
        comments.find? (fun t => t.id == cid) = some c → ¬(c.user_id = caller) →
        delete_comment comments cid caller = .error .forbidden) := by
  refine ⟨?_, ?_, ?_, ?_, ?_, ?_, ?_, ?_, ?_, ?_, ?_, ?_⟩
  · intro subs sid caller code h
    have hnone : subs.find? (fun t => t.id == sid) = none :=
      List.find?_eq_none.mpr (fun r hr => by simp [h r hr])
    simp [update_submission_code, _get_submission_or_404, hnone]
  · intro subs sid caller code s hfound hne
    have hb : (s.user_id == caller) = false := by simp [hne]
    simp [update_submission_code, _get_submission_or_404, hfound, _require_owner, hb]
  · intro subs sid caller description h
    have hnone : subs.find? (fun t => t.id == sid) = none :=
      List.find?_eq_none.mpr (fun r hr => by simp [h r hr])
    simp [update_submission_description, _get_submission_or_404, hnone]
  · intro subs sid caller description s hfound hne
    have hb : (s.user_id == caller) = false := by simp [hne]
    simp [update_submission_description, _get_submission_or_404, hfound, _require_owner, hb]
  · intro subs sid caller new_status h
    have hnone : subs.find? (fun t => t.id == sid) = none :=
      List.find?_eq_none.mpr (fun r hr => by simp [h r hr])
    simp [update_submission_status, _get_submission_or_404, hnone]
  · intro subs sid caller new_status s hfound hne
    have hb : (s.user_id == caller) = false := by simp [hne]
    simp [update_submission_status, _get_submission_or_404, hfound, _require_owner, hb]
  · intro subs sid caller h
    have hnone : subs.find? (fun t => t.id == sid) = none :=
      List.find?_eq_none.mpr (fun r hr => by simp [h r hr])
    simp [delete_submission, _get_submission_or_404, hnone]
  · intro subs sid caller s hfound hne
    have hb : (s.user_id == caller) = false := by simp [hne]
    simp [delete_submission, _get_submission_or_404, hfound, _require_owner, hb]
  · intro comments cid caller new_body h
    have hnone : comments.find? (fun t => t.id == cid) = none :=
      List.find?_eq_none.mpr (fun r hr => by simp [h r hr])
    simp [update_comment, _get_comment_or_404, hnone]
  · intro comments cid caller new_body c hfound hne
    have hb : (c.user_id == caller) = false := by simp [hne]
    simp [update_comment, _get_comment_or_404, hfound, _require_author, hb]
  · intro comments cid caller h
    have hnone : comments.find? (fun t => t.id == cid) = none :=
      List.find?_eq_none.mpr (fun r hr => by simp [h r hr])
    simp [delete_comment, _get_comment_or_404, hnone]
  · intro comments cid caller c hfound hne
    have hb : (c.user_id == caller) = false := by simp [hne]
    simp [delete_comment, _get_comment_or_404, hfound, _require_author, hb]

/-- Concrete runs of the C5 theorem: a code update against a missing
submission id yields 404, and a comment edit by a non-author yields 403. -/
theorem owner_author_guards_witness :
    update_submission_code [⟨"s1", "u1", "e", "T", "c", "py", "d", "open", none, 0⟩]
        "s2" "u1" "x" = .error .notFound ∧
    update_comment [⟨"c1", "s1", "u1", "e", "b", 0, 0⟩] "c1" "u2" "nb"
      = .error .forbidden := by
  constructor
  · exact owner_author_guards.1
      [⟨"s1", "u1", "e", "T", "c", "py", "d", "open", none, 0⟩] "s2" "u1" "x" (by decide)
  · exact owner_author_guards.2.2.2.2.2.2.2.2.2.1
      [⟨"c1", "s1", "u1", "e", "b", 0, 0⟩] "c1" "u2" "nb"
      ⟨"c1", "s1", "u1", "e", "b", 0, 0⟩ (by decide) (by decide)

/-! ## Leaderboard -/

/-- C9: myStats reports the caller's total submission count, the count of
those with status "approved", a score of ten points per approved submission,
and leaves the rank unset. -/
theorem my_stats_counts_and_score (subs : List SubmissionRow) (uid email : String) :
    (get_my_rank subs uid email).submissions_count
        = subs.countP (fun s => s.user_id == uid) ∧
    (get_my_rank subs uid email).approved_count
        = subs.countP (fun s => s.user_id == uid && s.status == "approved") ∧
    (get_my_rank subs uid email).score = (get_my_rank subs uid email).approved_count * 10 ∧
    (get_my_rank subs uid email).rank = none := by
  refine ⟨?_, ?_, rfl, rfl⟩
  · simp [get_my_rank, ← List.countP_eq_length_filter]
  · simp only [get_my_rank, List.countP_filter]
    exact List.countP_congr (fun s _ => by
      cases h1 : (s.status == "approved") <;> cases h2 : (s.user_id == uid) <;>
        simp [h1, h2])

/-! ## Search -/

/-- A title 55 characters long whose only occurrence of "bug" starts at
index 52, so a ±50-character window around it would truncate the front. -/
def titleX : String := String.mk (List.replicate 52 'a' ++ ['b', 'u', 'g'])

/-- A submission matching the query "bug" in its title only. -/
def subX : SubmissionRow :=
  { id := "sx", user_id := "u1", user_email := "u1@x.com", title := titleX
    code := "print(1)", language := "python", problem_description := ""
    status := "open", feedback := none, created_at := 3 }

/-- C8 counterexample: searching "bug" returns `subX` matched on title with
the whole 55-character title as the snippet, although the first occurrence
sits at index 52, so the claimed ±50-character window (with or without
ellipsis marks) differs from what is returned. -/
theorem search_title_snippet_counterexample :
    search_submissions [subX] "bug" = [⟨subX, some "title", some subX.title⟩] ∧
    substrIdx (lowerL (stripStr "bug")) (lowerL subX.title.toList) = some 52 ∧
    String.mk (snippetWindow subX.title.toList (lowerL (stripStr "bug")) 52) ≠ subX.title ∧
    String.mk ((subX.title.toList.drop 2).take 53) ≠ subX.title := by
  refine ⟨?_, ?_, ?_, ?_⟩ <;> decide

/-- C8 (amended): search matches case-insensitively against title,
description and code with field priority title > description > code; a
description or code match is reported with a snippet window extending 50
characters on each side of the first occurrence (ellipses marking
truncation), while a title match is reported with the full title as its
snippet. -/
theorem search_field_priority_and_snippets :
    (∀ (subs : List SubmissionRow) (q : String),
        search_submissions subs q
          = ((sortByCreatedDesc (subs.filter (matchesQuery (lowerL (stripStr q))))).take 25).map
              (search_annotate (lowerL (stripStr q)))) ∧
    (∀ (ql : List Char) (sub : SubmissionRow),
        (substrIdx ql (lowerL sub.title.toList)).isSome →
        search_annotate ql sub = ⟨sub, some "title", some sub.title⟩) ∧
    (∀ (ql : List Char) (sub : SubmissionRow) (i : Nat),
        substrIdx ql (lowerL sub.title.toList) = none →
        substrIdx ql (lowerL sub.problem_description.toList) = some i →
        search_annotate ql sub = ⟨sub, some "description",
          some (String.mk (snippetWindow sub.problem_description.toList ql i))⟩) ∧
    (∀ (ql : List Char) (sub : SubmissionRow) (i : Nat),
        substrIdx ql (lowerL sub.title.toList) = none →
        substrIdx ql (lowerL sub.problem_description.toList) = none →
        substrIdx ql (lowerL sub.code.toList) = some i →
        search_annotate ql sub = ⟨sub, some "code",
          some (String.mk (snippetWindow sub.code.toList ql i))⟩) ∧
    (∀ (ql : List Char) (sub : SubmissionRow),
        substrIdx ql (lowerL sub.title.toList) = none →
        substrIdx ql (lowerL sub.problem_description.toList) = none →
        substrIdx ql (lowerL sub.code.toList) = none →
        search_annotate ql sub = ⟨sub, none, none⟩) := by
  refine ⟨fun _ _ => rfl, ?_, ?_, ?_, ?_⟩
  · intro ql sub h
    obtain ⟨i, hi⟩ := Option.isSome_iff_exists.mp h
    unfold search_annotate
    rw [hi]
  · intro ql sub i h1 h2
    unfold search_annotate
    rw [h1, h2]
  · intro ql sub i h1 h2 h3
    unfold search_annotate
    rw [h1, h2, h3]
  · intro ql sub h1 h2 h3
    unfold search_annotate
    rw [h1, h2, h3]

/-- Concrete run of the C8 amended theorem: `subX` matched on its title is
annotated with the full title as snippet. -/
theorem search_field_priority_and_snippets_witness :
    search_annotate ['b', 'u', 'g'] subX = ⟨subX, some "title", some subX.title⟩ :=
  search_field_priority_and_snippets.2.1 ['b', 'u', 'g'] subX (by decide)

/-- Concrete run of the C3 theorem on the spec's scenario: user B comments
"nice catch @a@example.com" on a submission owned by the identity with that
email, producing exactly one "mention" notification to that identity. -/
theorem mention_fanout_dedup_and_resolution_witness :
    _notify_mentions
        (storeEnv [] [⟨"s1", "uA", "a@example.com", "T", "c", "py", "", "open", none, 0⟩])
        "nice catch @a@example.com @a@example.com" "b@x.com"
      = [mkNotification "uA" "b@x.com"] := by
  have h := mention_fanout_dedup_and_resolution
    [] [⟨"s1", "uA", "a@example.com", "T", "c", "py", "", "open", none, 0⟩]
    "nice catch @a@example.com @a@example.com" "b@x.com"
  rw [h.1]
  decide
